import Mathlib

/-!
Verification development for the `bevy_benchmark_games` repository: a shallow
embedding of its deterministic random source (`src/random.rs`), metrics data
model and persistence (`src/metrics.rs`, `src/cli.rs`), statistics and report
rendering (`src/cli.rs::graph_series`), and the per-example benchmark loops
(`examples/asteroids.rs`, `examples/breakout.rs`), together with theorems that
settle the specification's claims about them.

Machine integers are modelled as `Nat`, `f64` sample values as `ℚ` (every
value the program actually produces is finite), and the special values the
`f64` division in `graph_series` can produce are modelled explicitly by the
`FVal` type.  Fallible operations return `Except`; a Rust panicking path is
modelled as `Except Unit`.
-/

namespace BBG

/-! ## Deterministic random source (`src/random.rs`)

`FakeRand` wraps `Cycle<Iter<'static, u8>>` over the compiled-in constant
`FAKE_RAND_BYTES` (`include_bytes!("./random_bytes.bin")`).  We model the
cycle iterator state as the number of bytes consumed so far; the byte read at
position `i` is `buffer[i % buffer.length]`. -/

/-- Modelled from the spec: the compiled-in fixed seed buffer
(`random_bytes.bin`) is shipped as a constant artifact and is non-empty by
construction; its exact bytes are not part of the sources, and none of the
claims depend on the particular byte values, only on the buffer being a fixed
non-empty constant.  Any fixed non-empty byte list is a faithful model; we
use an arbitrary concrete 8-byte list. -/
def FAKE_RAND_BYTES : List Nat := [41, 7, 213, 0, 99, 182, 55, 128]

/-- State of the cycling iterator `Cycle<Iter<'static, u8>>`: the total number
of bytes consumed since construction. -/
structure FakeRand where
  cursor : Nat
deriving DecidableEq

/-- The byte produced at absolute position `i` of the cycling stream. -/
def byteAt (i : Nat) : Nat :=
  FAKE_RAND_BYTES.getD (i % FAKE_RAND_BYTES.length) 0

/-- `Default for FakeRand`: a fresh cycle over the constant buffer. -/
def FakeRand.mkDefault : FakeRand := ⟨0⟩

/-- `FakeRand::new`, which just delegates to `Default::default`. -/
def FakeRand.new : FakeRand := FakeRand.mkDefault

/-- `self.0.next().unwrap()`: read one byte and advance the cycle.  The cycle
over a non-empty slice never ends, so the unwrap is total in the model. -/
def FakeRand.next (r : FakeRand) : Nat × FakeRand :=
  (byteAt r.cursor, ⟨r.cursor + 1⟩)

/-- `FakeRand::skip`: `for _ in 0..bytes { self.0.next().unwrap(); }`. -/
def FakeRand.skip (r : FakeRand) : Nat → FakeRand
  | 0 => r
  | k + 1 => FakeRand.skip (r.next).2 k

/-- `RngCore::fill_bytes` on a destination of length `n`:
`for byte in dest { *byte = *self.0.next().unwrap(); }`.  Returns the bytes
written together with the post-state. -/
def FakeRand.fillBytes (r : FakeRand) : Nat → List Nat × FakeRand
  | 0 => ([], r)
  | n + 1 =>
    let s := r.next
    let rest := FakeRand.fillBytes s.2 n
    (s.1 :: rest.1, rest.2)

/-- Little-endian byte composition (`u32::from_le_bytes` and
`u64::from_le_bytes`, as used by `rand_core`'s fill-based helpers). -/
def leValue (bs : List Nat) : Nat :=
  bs.foldr (fun b acc => b + 256 * acc) 0

/-- `RngCore::next_u32` via `rand_core::impls::next_u32_via_fill`: fill 4
bytes and combine them little-endian. -/
def FakeRand.nextU32 (r : FakeRand) : Nat × FakeRand :=
  let s := r.fillBytes 4
  (leValue s.1, s.2)

/-- `RngCore::next_u64` via `rand_core::impls::next_u64_via_fill`: fill 8
bytes and combine them little-endian. -/
def FakeRand.nextU64 (r : FakeRand) : Nat × FakeRand :=
  let s := r.fillBytes 8
  (leValue s.1, s.2)

/-! ## Metrics data model (`src/metrics.rs`) -/

/-- `IterationMetrics`: one sample per execution iteration.  `u64` counters
are modelled as `Nat`; the `f64` microsecond average as `ℚ` (the program only
ever produces finite values). -/
structure IterationMetrics where
  cpu_cycles : Nat
  cpu_instructions : Nat
  avg_frame_time_us : ℚ
deriving DecidableEq

/-- `Metrics`: the ordered sequence of per-iteration samples of one run. -/
structure Metrics where
  iterations : List IterationMetrics
deriving DecidableEq

/-! ## Persistence (`src/cli.rs::start`, lines 70-87)

The baseline record is a JSON document: the harness writes the current
`Metrics` with `serde_json::to_writer` and reads the previous one with
`serde_json::from_reader` into `Option<Metrics>`.  We model JSON documents by
an explicit AST and the serde encoder/decoder for exactly these types. -/

inductive Json where
  | null
  | bool (b : Bool)
  | num (q : ℚ)
  | str (s : String)
  | arr (items : List Json)
  | obj (fields : List (String × Json))

def keyCpuCycles : String := "cpu_cycles"

def keyCpuInstructions : String := "cpu_instructions"

def keyAvgFrameTimeUs : String := "avg_frame_time_us"

def keyIterations : String := "iterations"

def errExpectedNumber : String := "invalid type: expected a number"

def errExpectedU64 : String := "invalid value: expected u64"

def errExpectedObject : String := "invalid type: expected an object"

def errExpectedArray : String := "invalid type: expected an array"

def errMissingField : String := "missing field"

/-- serde: deserialize an `f64` from a JSON value (a number). -/
def decodeF64 : Json → Except String ℚ
  | .num q => .ok q
  | _ => .error errExpectedNumber

/-- serde: deserialize a `u64` from a JSON value (a non-negative integral
number). -/
def decodeU64 (j : Json) : Except String Nat :=
  match j with
  | .num q => if q.den = 1 ∧ 0 ≤ q.num then .ok q.num.toNat else .error errExpectedU64
  | _ => .error errExpectedU64

/-- serde: look up a required struct field in a JSON object. -/
def getField (fields : List (String × Json)) (key : String) : Except String Json :=
  match List.lookup key fields with
  | some j => .ok j
  | none => .error errMissingField

/-- serde: serialize one `IterationMetrics` (struct → JSON object). -/
def encodeIterationMetrics (m : IterationMetrics) : Json :=
  .obj [(keyCpuCycles, .num m.cpu_cycles),
        (keyCpuInstructions, .num m.cpu_instructions),
        (keyAvgFrameTimeUs, .num m.avg_frame_time_us)]

/-- serde: deserialize one `IterationMetrics`; every failure propagates, as
`?` does in the harness. -/
def decodeIterationMetrics (j : Json) : Except String IterationMetrics :=
  match j with
  | .obj fields =>
    match getField fields keyCpuCycles with
    | .error e => .error e
    | .ok jc =>
      match decodeU64 jc with
      | .error e => .error e
      | .ok c =>
        match getField fields keyCpuInstructions with
        | .error e => .error e
        | .ok ji =>
          match decodeU64 ji with
          | .error e => .error e
          | .ok i =>
            match getField fields keyAvgFrameTimeUs with
            | .error e => .error e
            | .ok ja =>
              match decodeF64 ja with
              | .error e => .error e
              | .ok a => .ok ⟨c, i, a⟩
  | _ => .error errExpectedObject

/-- serde: serialize a `Metrics` record, as `serde_json::to_writer` does when
the harness saves the current run (`src/cli.rs` lines 81-87). -/
def encodeMetrics (m : Metrics) : Json :=
  .obj [(keyIterations, .arr (m.iterations.map encodeIterationMetrics))]

/-- serde: deserialize a JSON array element-by-element into the `Vec` of
iteration samples, stopping at the first failure. -/
def decodeIterationList : List Json → Except String (List IterationMetrics)
  | [] => .ok []
  | j :: rest =>
    match decodeIterationMetrics j with
    | .error e => .error e
    | .ok m =>
      match decodeIterationList rest with
      | .error e => .error e
      | .ok ms => .ok (m :: ms)

/-- serde: deserialize a `Metrics` record. -/
def decodeMetrics (j : Json) : Except String Metrics :=
  match j with
  | .obj fields =>
    match getField fields keyIterations with
    | .error e => .error e
    | .ok jiters =>
      match jiters with
      | .arr items =>
        match decodeIterationList items with
        | .error e => .error e
        | .ok iters => .ok ⟨iters⟩
      | _ => .error errExpectedArray
  | _ => .error errExpectedObject

/-- Whether a JSON value is the `null` document. -/
def Json.isNull : Json → Bool
  | .null => true
  | _ => false

/-- serde: deserialize an `Option<Metrics>`, as the harness does on
`src/cli.rs` line 75 (`serde_json::from_reader(file)?` at type
`Option<Metrics>`): JSON `null` becomes `None`, anything else must decode as
a `Metrics`. -/
def decodeOptionMetrics (j : Json) : Except String (Option Metrics) :=
  if j.isNull then .ok none else (decodeMetrics j).map some

/-- The baseline-loading logic of `src/cli.rs` lines 70-78: if no metrics
file exists for the benchmark the baseline is `none`; otherwise the file's
JSON document is deserialized as `Option<Metrics>` and any decode error is
propagated with `?` (fatal for the invocation). -/
def loadPreviousMetrics (file : Option Json) : Except String (Option Metrics) :=
  match file with
  | none => .ok none
  | some j => decodeOptionMetrics j

/-- The save step of `src/cli.rs` lines 81-87: the current `Metrics` is
serialized and written over the per-benchmark metrics file. -/
def saveMetrics (m : Metrics) : Json :=
  encodeMetrics m

/-! ## Distribution statistics and the percentage delta
(`src/cli.rs::graph_series`, lines 246-364)

`criterion_stats::Distribution::mean` is the arithmetic mean of the samples.
The percentage delta is computed in `f64` as
`(dist.mean() - prev.mean()) / prev.mean() * 100.` and drawn with
`format!("{:+.2}%", percentage_diff)`.  `f64` division by zero produces
`±inf`/`NaN`, which we model explicitly with `FVal`. -/

/-- `Distribution::mean`: arithmetic mean of a sample vector (the program
only constructs distributions from non-empty vectors). -/
def mean (xs : List ℚ) : ℚ :=
  xs.sum / (xs.length : ℚ)

/-- A model of the `f64` values relevant to the delta computation: finite
values, the two infinities, and NaN. -/
inductive FVal where
  | fin (q : ℚ)
  | inf
  | ninf
  | nan
deriving DecidableEq

/-- IEEE-754 division of two finite `f64` values: division by zero yields an
infinity of the numerator's sign, or NaN for `0/0`. -/
def fdivQ (a b : ℚ) : FVal :=
  if b = 0 then
    if a = 0 then .nan else if 0 < a then .inf else .ninf
  else .fin (a / b)

/-- IEEE-754 multiplication of an `FVal` by a finite constant. -/
def fmulQ (v : FVal) (k : ℚ) : FVal :=
  match v with
  | .fin a => .fin (a * k)
  | .inf => if 0 < k then .inf else if k < 0 then .ninf else .nan
  | .ninf => if 0 < k then .ninf else if k < 0 then .inf else .nan
  | .nan => .nan

/-- The percentage diff of `graph_series` (line 342):
`(dist.mean() - prev.mean()) / prev.mean() * 100.`. -/
def percentageDiff (data prev : List ℚ) : FVal :=
  fmulQ (fdivQ (mean data - mean prev) (mean prev)) 100

/-- Two-decimal signed rendering of a finite value, modelling Rust's
`format!("{:+.2}", x)`. -/
def formatSigned2 (q : ℚ) : String :=
  let c : Int := round (q * 100)
  let sign := if c < 0 then "-" else "+"
  let n := c.natAbs
  let frac := n % 100
  let fracStr := if frac < 10 then "0" ++ toString frac else toString frac
  sign ++ toString (n / 100) ++ "." ++ fracStr

def percentSign : String := "%"

def plusInfPercent : String := "+inf%"

def minusInfPercent : String := "-inf%"

def nanPercent : String := "NaN%"

def notAvailable : String := "n/a"

/-- The text drawn for the percentage diff (line 354):
`format!("{:+.2}%", percentage_diff)`; Rust renders the non-finite `f64`
values as `inf`/`-inf`/`NaN`. -/
def renderDelta (v : FVal) : String :=
  match v with
  | .fin q => formatSigned2 q ++ percentSign
  | .inf => plusInfPercent
  | .ninf => minusInfPercent
  | .nan => nanPercent

/-! ## The sample sort of `start` (`src/cli.rs` lines 110-119, 137-146,
158-170)

Each metric's sample vector is sorted with
`sort_unstable_by(|x, y| x.partial_cmp(&y).unwrap())`.  `f64::partial_cmp`
returns `None` exactly when one operand is NaN, and `unwrap` then panics.  We
model the samples as `FVal`s, the comparator as `tryCompare`, and the sort as
an insertion sort in which any `None` comparison aborts with the panic
(`Except.error ()`). -/

/-- `f64::partial_cmp`: NaN compares to nothing; otherwise the usual total
order with `-inf < finite < inf`. -/
def tryCompare (x y : FVal) : Option Ordering :=
  match x, y with
  | .nan, _ => none
  | _, .nan => none
  | .ninf, .ninf => some .eq
  | .ninf, _ => some .lt
  | _, .ninf => some .gt
  | .inf, .inf => some .eq
  | .inf, _ => some .gt
  | _, .inf => some .lt
  | .fin a, .fin b => some (if a < b then .lt else if b < a then .gt else .eq)

/-- Insert into a sorted prefix, panicking (`Except.error ()`) as soon as the
comparator is applied to a NaN, exactly where `unwrap` would panic. -/
def insertOrPanic (x : FVal) : List FVal → Except Unit (List FVal)
  | [] => .ok [x]
  | y :: ys =>
    match tryCompare x y with
    | none => .error ()
    | some .gt =>
      match insertOrPanic x ys with
      | .error e => .error e
      | .ok zs => .ok (y :: zs)
    | some _ => .ok (x :: y :: ys)

/-- The fallible comparison sort: a model of `sort_unstable_by` with the
panicking comparator. -/
def sortOrPanic : List FVal → Except Unit (List FVal)
  | [] => .ok []
  | x :: xs =>
    match sortOrPanic xs with
    | .error e => .error e
    | .ok s => insertOrPanic x s

/-! ## Benchmark workload loops (`examples/asteroids.rs`,
`examples/breakout.rs`)

The `#[cfg(headless)]`-selected constants, the per-iteration update loops,
and the metric recorded at the end of each iteration.  Rust's `a..b` and
`a..=b` range loops are modelled by explicit index lists. -/

/-- A Rust exclusive range `a..b` as the list of indices it iterates. -/
def rustRange (a b : Nat) : List Nat :=
  (List.range (b - a)).map (a + ·)

/-- A Rust inclusive range `a..=b` as the list of indices it iterates. -/
def rustRangeIncl (a b : Nat) : List Nat :=
  (List.range (b + 1 - a)).map (a + ·)

/-- asteroids `RUN_FOR_FRAMES`: 2000 under `#[cfg(headless)]`, 500 under
`#[cfg(not(headless))]`. -/
def asteroidsRunForFrames (headless : Bool) : Nat :=
  if headless then 2000 else 500

/-- asteroids `ITERATIONS`: 50 headless, 2 windowed. -/
def asteroidsIterations (headless : Bool) : Nat :=
  if headless then 50 else 2

/-- breakout `RUN_FOR_FRAMES`: 300 headless, 400 windowed. -/
def breakoutRunForFrames (headless : Bool) : Nat :=
  if headless then 300 else 400

/-- breakout `ITERATIONS`: 200 headless, 2 windowed. -/
def breakoutIterations (headless : Bool) : Nat :=
  if headless then 200 else 2

/-- The number of `app.update()` calls one headless asteroids iteration
performs: `for _ in 0..=RUN_FOR_FRAMES { app.update(); }`
(`examples/asteroids.rs` lines 290-293). -/
def asteroidsHeadlessUpdates : Nat :=
  (rustRangeIncl 0 (asteroidsRunForFrames true)).length

/-- The number of `app.update()` calls one headless breakout iteration
performs: `for _ in 0..RUN_FOR_FRAMES { app.update(); }`
(`examples/breakout.rs` lines 87-90). -/
def breakoutHeadlessUpdates : Nat :=
  (rustRange 0 (breakoutRunForFrames true)).length

/-- The `IterationMetrics` pushed at the end of one iteration: the counter
readings, and `elapsed.as_micros() as f64 / RUN_FOR_FRAMES as f64`. -/
def recordIteration (runForFrames cyc ins elapsedUs : Nat) : IterationMetrics :=
  ⟨cyc, ins, (elapsedUs : ℚ) / (runForFrames : ℚ)⟩

/-- The top-level measurement loop shared by both examples:
`for _ in 0..ITERATIONS` runs one iteration and pushes one sample.  The
counter readings and elapsed time of repetition `i` are environment inputs,
supplied by the oracle `measure : i ↦ (cycles, instructions, elapsed µs)`. -/
def runBenchmark (iterations runForFrames : Nat) (measure : Nat → Nat × Nat × Nat) : Metrics :=
  ⟨(List.range iterations).map
    (fun i => recordIteration runForFrames (measure i).1 (measure i).2.1 (measure i).2.2)⟩

/-! Concrete sample vectors used by the end-to-end scenarios and the
counterexamples below. -/

/-- The spec's scenario C current samples. -/
def samplesCurrentC : List ℚ := [10, 20, 30]

/-- The spec's scenario C baseline samples. -/
def samplesBaselineC : List ℚ := [10, 10, 10]

/-- A baseline sample vector with mean zero. -/
def samplesZeroBase : List ℚ := [0, 0, 0]

/-- A baseline sample vector with negative mean. -/
def samplesNegBase : List ℚ := [-1]

/-- A current sample vector with mean zero. -/
def samplesZeroCur : List ℚ := [0]

/-! ## Helper lemmas -/

theorem FakeRand.skip_cursor (k : Nat) : ∀ r : FakeRand, (r.skip k).cursor = r.cursor + k := by
  induction k with
  | zero => intro r; rfl
  | succ k ih =>
    intro r
    show ((FakeRand.next r).2.skip k).cursor = _
    rw [ih]
    simp [FakeRand.next]
    omega

theorem FakeRand.fillBytes_eq (n : Nat) :
    ∀ r : FakeRand,
      r.fillBytes n = ((List.range n).map (fun i => byteAt (r.cursor + i)), ⟨r.cursor + n⟩) := by
  induction n with
  | zero => intro r; simp [FakeRand.fillBytes]
  | succ n ih =>
    intro r
    have hstep : FakeRand.fillBytes r (n + 1)
        = (byteAt r.cursor :: ((FakeRand.mk (r.cursor + 1)).fillBytes n).1,
           ((FakeRand.mk (r.cursor + 1)).fillBytes n).2) := rfl
    rw [hstep, ih]
    dsimp only
    rw [Prod.mk.injEq]
    refine ⟨?_, ?_⟩
    · rw [List.range_succ_eq_map, List.map_cons, List.map_map]
      refine List.cons_eq_cons.mpr ⟨?_, ?_⟩
      · simp
      · refine List.map_congr_left ?_
        intro i _
        show byteAt (r.cursor + 1 + i) = byteAt (r.cursor + (i + 1))
        congr 1
        omega
    · congr 1
      omega

theorem Json.isNull_iff (j : Json) : j.isNull = true ↔ j = Json.null := by
  cases j <;> simp [Json.isNull]

theorem decodeU64_natCast (n : Nat) : decodeU64 (Json.num (n : ℚ)) = Except.ok n := by
  simp [decodeU64]

theorem decodeIterationMetrics_encode (m : IterationMetrics) :
    decodeIterationMetrics (encodeIterationMetrics m) = .ok m := by
  simp +decide [decodeIterationMetrics, encodeIterationMetrics, getField, List.lookup,
    keyCpuCycles, keyCpuInstructions, keyAvgFrameTimeUs, decodeU64_natCast, decodeF64]

theorem decodeIterationList_encode (ms : List IterationMetrics) :
    decodeIterationList (ms.map encodeIterationMetrics) = .ok ms := by
  induction ms with
  | nil => rfl
  | cons m ms ih =>
    rw [List.map_cons]
    show (match decodeIterationMetrics (encodeIterationMetrics m) with
      | Except.error e => Except.error e
      | Except.ok m' =>
        match decodeIterationList (ms.map encodeIterationMetrics) with
        | Except.error e => (Except.error e : Except String (List IterationMetrics))
        | Except.ok ms' => Except.ok (m' :: ms')) = Except.ok (m :: ms)
    rw [decodeIterationMetrics_encode, ih]

/-! ## Claim theorems -/

/-- C1: any two fresh instances of the deterministic random source
(`FakeRand::new()` and `FakeRand::default()`) produce identical output for
every read — `fill_bytes` of any length `n` (including `n` beyond the seed
buffer length, spanning wrap-arounds), `next_u32`, and `next_u64`; moreover
the output is the fixed function `i ↦ byteAt i` of the position alone, so it
depends on no entropy, thread-local, or clock state. -/
theorem fresh_fakeRand_reads_identical (r₁ r₂ : FakeRand)
    (h₁ : r₁ = FakeRand.new) (h₂ : r₂ = FakeRand.mkDefault) (n : Nat) :
    (r₁.fillBytes n).1 = (r₂.fillBytes n).1 ∧
    (r₁.fillBytes n).1 = (List.range n).map byteAt ∧
    r₁.nextU32.1 = r₂.nextU32.1 ∧
    r₁.nextU64.1 = r₂.nextU64.1 := by
  subst h₁
  subst h₂
  refine ⟨rfl, ?_, rfl, rfl⟩
  rw [FakeRand.fillBytes_eq]
  show (List.range n).map (fun i => byteAt (FakeRand.new.cursor + i)) = _
  refine List.map_congr_left ?_
  intro i _
  show byteAt (0 + i) = byteAt i
  rw [Nat.zero_add]

/-- C1 witness: at `n = 20`, more than twice the seed buffer length, the two
fresh instances agree. -/
theorem fresh_fakeRand_reads_identical_witness :
    2 * FAKE_RAND_BYTES.length < 20 ∧
    (FakeRand.new.fillBytes 20).1 = (FakeRand.mkDefault.fillBytes 20).1 :=
  ⟨by decide, (fresh_fakeRand_reads_identical FakeRand.new FakeRand.mkDefault rfl rfl 20).1⟩

/-- C9: for every state of the source and all `k, n ≥ 0`, `skip(k)` followed
by reading `n` bytes yields exactly the trailing `n` bytes of a `k + n`-byte
read from the same state, and in both cases the cursor ends up advanced by
exactly `k + n` positions, hence at the same position modulo the buffer
length. -/
theorem skip_then_fill_eq_trailing (r : FakeRand) (k n : Nat) :
    ((r.skip k).fillBytes n).1 = ((r.fillBytes (k + n)).1).drop k ∧
    ((r.skip k).fillBytes n).2.cursor = r.cursor + (k + n) ∧
    (r.fillBytes (k + n)).2.cursor = r.cursor + (k + n) ∧
    ((r.skip k).fillBytes n).2.cursor % FAKE_RAND_BYTES.length
      = ((r.fillBytes (k + n)).2.cursor) % FAKE_RAND_BYTES.length := by
  have hs : (r.skip k).cursor = r.cursor + k := FakeRand.skip_cursor k r
  have h1 : ((r.skip k).fillBytes n).1 = ((r.fillBytes (k + n)).1).drop k := by
    rw [FakeRand.fillBytes_eq, FakeRand.fillBytes_eq]
    dsimp only
    rw [hs, List.range_add, List.map_append, List.map_map,
      List.drop_left' (by simp)]
    refine List.map_congr_left ?_
    intro i _
    show byteAt (r.cursor + k + i) = byteAt (r.cursor + (k + i))
    congr 1
    omega
  have h2 : ((r.skip k).fillBytes n).2.cursor = r.cursor + (k + n) := by
    rw [FakeRand.fillBytes_eq]
    dsimp only
    rw [hs]
    omega
  have h3 : (r.fillBytes (k + n)).2.cursor = r.cursor + (k + n) := by
    rw [FakeRand.fillBytes_eq]
  exact ⟨h1, h2, h3, by rw [h2, h3]⟩

/-- C3 counterexample: for the asteroids workload the configured logical step
count per iteration is 2000 in headless mode but 500 in interactive mode —
the mode does affect it. -/
theorem mode_step_count_differs_cex :
    asteroidsRunForFrames true = 2000 ∧ asteroidsRunForFrames false = 500 ∧
    asteroidsRunForFrames true ≠ asteroidsRunForFrames false := by
  decide

/-- C3 amended: the headless/interactive selection changes `RUN_FOR_FRAMES`
for both workloads — asteroids uses 2000 steps headless and 500 interactive,
breakout 300 headless and 400 interactive — so the logical step count per
iteration is not mode-independent. -/
theorem mode_step_counts_by_workload :
    asteroidsRunForFrames true = 2000 ∧ asteroidsRunForFrames false = 500 ∧
    breakoutRunForFrames true = 300 ∧ breakoutRunForFrames false = 400 ∧
    asteroidsRunForFrames true ≠ asteroidsRunForFrames false ∧
    breakoutRunForFrames true ≠ breakoutRunForFrames false := by
  decide

/-- C2 counterexample: a headless asteroids iteration performs
`RUN_FOR_FRAMES + 1 = 2001` update steps, not `RUN_FOR_FRAMES = 2000`,
because its loop is the inclusive `for _ in 0..=RUN_FOR_FRAMES`. -/
theorem asteroids_updates_off_by_one_cex :
    asteroidsHeadlessUpdates = 2001 ∧ asteroidsRunForFrames true = 2000 ∧
    asteroidsHeadlessUpdates ≠ asteroidsRunForFrames true := by
  have h : asteroidsHeadlessUpdates = 2001 := by
    simp [asteroidsHeadlessUpdates, rustRangeIncl, asteroidsRunForFrames]
  exact ⟨h, rfl, by rw [h]; decide⟩

/-- C2 amended: in headless mode a breakout iteration drives the workload for
exactly `RUN_FOR_FRAMES` update steps, while an asteroids iteration drives it
for `RUN_FOR_FRAMES + 1` steps (inclusive loop bound); in both workloads the
recorded `avg_frame_time_us` equals the iteration's elapsed wall-clock
microseconds divided by `RUN_FOR_FRAMES`. -/
theorem headless_updates_and_avg_frame_time :
    asteroidsHeadlessUpdates = asteroidsRunForFrames true + 1 ∧
    breakoutHeadlessUpdates = breakoutRunForFrames true ∧
    (∀ cyc ins e : Nat,
      (recordIteration (asteroidsRunForFrames true) cyc ins e).avg_frame_time_us
          * (asteroidsRunForFrames true : ℚ) = e ∧
      (recordIteration (breakoutRunForFrames true) cyc ins e).avg_frame_time_us
          * (breakoutRunForFrames true : ℚ) = e) := by
  refine ⟨?_, ?_, ?_⟩
  · simp [asteroidsHeadlessUpdates, rustRangeIncl, asteroidsRunForFrames]
  · simp [breakoutHeadlessUpdates, rustRange, breakoutRunForFrames]
  · intro cyc ins e
    constructor
    · show (e : ℚ) / ((asteroidsRunForFrames true : Nat) : ℚ) * _ = _
      exact div_mul_cancel₀ _ (by norm_num [asteroidsRunForFrames])
    · show (e : ℚ) / ((breakoutRunForFrames true : Nat) : ℚ) * _ = _
      exact div_mul_cancel₀ _ (by norm_num [breakoutRunForFrames])

/-- C6: the top-level measurement loop produces a `Metrics` whose
`iterations` sequence has exactly `ITERATIONS` entries — one per top-level
repetition in iteration order, entry `i` recording repetition `i`'s
measurements — for any iteration count, in particular the `ITERATIONS`
constants of both workloads in either mode. -/
theorem run_has_iterations_entries (iters frames : Nat) (measure : Nat → Nat × Nat × Nat) :
    (runBenchmark iters frames measure).iterations.length = iters ∧
    (∀ i, i < iters →
      (runBenchmark iters frames measure).iterations[i]?
        = some (recordIteration frames (measure i).1 (measure i).2.1 (measure i).2.2)) ∧
    (∀ h : Bool,
      (runBenchmark (asteroidsIterations h) frames measure).iterations.length
          = asteroidsIterations h ∧
      (runBenchmark (breakoutIterations h) frames measure).iterations.length
          = breakoutIterations h) := by
  refine ⟨by simp [runBenchmark], ?_, ?_⟩
  · intro i hi
    simp [runBenchmark, List.getElem?_map, List.getElem?_range hi]
  · intro h
    constructor <;> simp [runBenchmark]

/-- C6 witness: a run of 2 iterations has entry 0 recording repetition 0. -/
theorem run_has_iterations_entries_witness :
    (0 : Nat) < 2 ∧
    (runBenchmark 2 10 (fun i => (i, 2 * i, 100))).iterations[0]?
      = some (recordIteration 10 0 0 100) :=
  ⟨by decide, (run_has_iterations_entries 2 10 (fun i => (i, 2 * i, 100))).2.1 0 (by decide)⟩

/-- C7 counterexample: a metrics file containing the JSON document `null`
exists, yet loading yields `none` without an error — because the record is
deserialized at type `Option<Metrics>`, for which serde maps `null` to
`None`.  So "`none` exactly when no file exists" fails. -/
theorem baseline_none_despite_file_cex :
    loadPreviousMetrics (some Json.null) = Except.ok none ∧
    some Json.null ≠ (none : Option Json) :=
  ⟨rfl, Option.some_ne_none _⟩

/-- C7 amended: loading returns `none` exactly when no metrics file exists
or the existing file holds the JSON document `null` (the deserialized type
is `Option<Metrics>`); a file whose content fails to parse as the record
shape makes the invocation fail with the propagated error rather than being
treated as an absent baseline. -/
theorem load_baseline_none_iff (file : Option Json) :
    (loadPreviousMetrics file = Except.ok none ↔ file = none ∨ file = some Json.null) ∧
    (∀ j e, file = some j → j ≠ Json.null → decodeMetrics j = Except.error e →
      loadPreviousMetrics file = Except.error e) := by
  constructor
  · constructor
    · intro h
      cases file with
      | none => exact Or.inl rfl
      | some j =>
        refine Or.inr ?_
        have h' : decodeOptionMetrics j = Except.ok none := h
        by_cases hn : j.isNull = true
        · exact congrArg some ((Json.isNull_iff j).mp hn)
        · exfalso
          rw [decodeOptionMetrics, if_neg hn] at h'
          cases hd : decodeMetrics j with
          | error e => rw [hd] at h'; simp [Except.map] at h'
          | ok v => rw [hd] at h'; simp [Except.map] at h'
    · intro h
      rcases h with h | h
      · rw [h]
        rfl
      · rw [h]
        rfl
  · intro j e hf hne hd
    rw [hf]
    show decodeOptionMetrics j = _
    rw [decodeOptionMetrics, if_neg (fun hc => hne ((Json.isNull_iff j).mp hc)), hd]
    rfl

/-- C7 witness: a malformed record (a JSON string) is a propagated error,
and an absent file is `none` without error. -/
theorem load_baseline_none_iff_witness :
    loadPreviousMetrics (some (Json.str notAvailable)) = Except.error errExpectedObject ∧
    loadPreviousMetrics (none : Option Json) = Except.ok none :=
  ⟨(load_baseline_none_iff (some (Json.str notAvailable))).2 (Json.str notAvailable)
      errExpectedObject rfl (fun hc => Json.noConfusion hc) rfl,
   (load_baseline_none_iff none).1.mpr (Or.inl rfl)⟩

/-- C8: persistence round-trips exactly — saving any `RunMetrics` (of any
number of entries) and loading it back yields the same entries in the same
order with every `cpu_cycles`, `cpu_instructions` and `avg_frame_time_us`
value preserved. -/
theorem save_then_load_roundtrip (m : Metrics) :
    loadPreviousMetrics (some (saveMetrics m)) = Except.ok (some m) := by
  have hd : decodeMetrics (encodeMetrics m) = Except.ok ⟨m.iterations⟩ := by
    have h1 : decodeMetrics (encodeMetrics m)
        = match decodeIterationList (m.iterations.map encodeIterationMetrics) with
          | Except.error e => Except.error e
          | Except.ok iters => Except.ok ⟨iters⟩ := rfl
    rw [h1, decodeIterationList_encode]
  have h2 : loadPreviousMetrics (some (saveMetrics m))
      = (decodeMetrics (encodeMetrics m)).map some := rfl
  rw [h2, hd]
  rfl

/-- C4 counterexample: with baseline samples of mean 0 and current samples
`[10,20,30]`, `graph_series` computes the delta anyway — the `f64` division
by zero yields `+inf` — and renders it through the numeric formatter as
`+inf%`, not as an explicit `n/a` text. -/
theorem zero_mean_baseline_renders_inf_cex :
    mean samplesZeroBase = 0 ∧
    percentageDiff samplesCurrentC samplesZeroBase = FVal.inf ∧
    renderDelta (percentageDiff samplesCurrentC samplesZeroBase) = plusInfPercent ∧
    plusInfPercent ≠ notAvailable := by
  have h0 : mean samplesZeroBase = 0 := by
    norm_num [mean, samplesZeroBase]
  have hc : mean samplesCurrentC = 20 := by
    norm_num [mean, samplesCurrentC]
  have hpd : percentageDiff samplesCurrentC samplesZeroBase = FVal.inf := by
    simp only [percentageDiff, h0, hc]
    norm_num [fdivQ, fmulQ]
  refine ⟨h0, hpd, ?_, by decide⟩
  rw [hpd]
  rfl

/-- C4 amended: when the baseline mean is 0 the percentage delta is not
special-cased — the division by zero makes it `+inf`, `-inf`, or `NaN`
(by the sign of the current mean), and it is rendered through the normal
numeric format (`+inf%`/`-inf%`/`NaN%`); no `n/a` text exists anywhere in
the renderer.  The rest of the report is still produced (the computation
returns normally). -/
theorem zero_mean_baseline_amended (data prev : List ℚ) (h0 : mean prev = 0) :
    (percentageDiff data prev = FVal.inf ∨ percentageDiff data prev = FVal.ninf ∨
      percentageDiff data prev = FVal.nan) ∧
    renderDelta (percentageDiff data prev) ≠ notAvailable := by
  have key : percentageDiff data prev
      = if mean data = 0 then FVal.nan else if 0 < mean data then FVal.inf else FVal.ninf := by
    by_cases hz : mean data = 0
    · norm_num [percentageDiff, h0, hz, fdivQ, fmulQ]
    · by_cases hp : 0 < mean data
      · norm_num [percentageDiff, h0, hz, hp, fdivQ, fmulQ]
      · norm_num [percentageDiff, h0, hz, hp, fdivQ, fmulQ]
  constructor
  · rw [key]
    split_ifs <;> simp
  · rw [key]
    split_ifs <;> decide

/-- C4 witness: at the concrete zero-mean baseline the delta is not the
`n/a` text. -/
theorem zero_mean_baseline_amended_witness :
    mean samplesZeroBase = 0 ∧
    renderDelta (percentageDiff samplesCurrentC samplesZeroBase) ≠ notAvailable :=
  ⟨by norm_num [mean, samplesZeroBase],
   (zero_mean_baseline_amended samplesCurrentC samplesZeroBase
      (by norm_num [mean, samplesZeroBase])).2⟩

/-- C5 counterexample: with current samples `[0]` and baseline samples
`[-1]` the baseline mean is nonzero and the current mean is strictly
greater, yet the computed percentage delta is `-100`, which is negative —
the claimed sign equivalence fails for negative baseline means. -/
theorem percent_delta_sign_cex :
    mean samplesNegBase ≠ 0 ∧
    mean samplesNegBase < mean samplesZeroCur ∧
    percentageDiff samplesZeroCur samplesNegBase = FVal.fin (-100) ∧
    ¬ 0 < (-100 : ℚ) := by
  refine ⟨by norm_num [mean, samplesNegBase], by norm_num [mean, samplesNegBase, samplesZeroCur],
    ?_, by norm_num⟩
  norm_num [percentageDiff, mean, samplesZeroCur, samplesNegBase, fdivQ, fmulQ]

/-- C5 amended: for baseline mean nonzero the rendered delta value is
exactly `(current.mean − baseline.mean) / baseline.mean × 100`; when the
baseline mean is moreover positive, that value is strictly positive iff
`current.mean > baseline.mean` and strictly negative iff
`current.mean < baseline.mean`; and for current samples `[10,20,30]`
against baseline `[10,10,10]` it equals `100`. -/
theorem percent_delta_formula_amended (data prev : List ℚ) (hm : mean prev ≠ 0) :
    percentageDiff data prev
        = FVal.fin ((mean data - mean prev) / mean prev * 100) ∧
    (0 < mean prev →
      ((0 < (mean data - mean prev) / mean prev * 100 ↔ mean prev < mean data) ∧
       ((mean data - mean prev) / mean prev * 100 < 0 ↔ mean data < mean prev))) ∧
    percentageDiff samplesCurrentC samplesBaselineC = FVal.fin 100 := by
  refine ⟨?_, ?_, ?_⟩
  · simp [percentageDiff, fdivQ, fmulQ, hm]
  · intro hp
    have hd : ∀ x : ℚ, (0 < x * 100 ↔ 0 < x) ∧ (x * 100 < 0 ↔ x < 0) := by
      intro x
      constructor
      · constructor <;> intro h <;> nlinarith
      · constructor <;> intro h <;> nlinarith
    constructor
    · rw [(hd _).1, div_pos_iff]
      constructor
      · rintro (⟨h1, _⟩ | ⟨_, h2⟩)
        · linarith
        · linarith
      · intro h
        exact Or.inl ⟨by linarith, hp⟩
    · rw [(hd _).2, div_neg_iff]
      constructor
      · rintro (⟨_, h2⟩ | ⟨h1, _⟩)
        · linarith
        · linarith
      · intro h
        exact Or.inr ⟨by linarith, hp⟩
  · norm_num [percentageDiff, mean, samplesCurrentC, samplesBaselineC, fdivQ, fmulQ]

/-- C5 witness: the spec's scenario C instance through the amended
theorem. -/
theorem percent_delta_formula_amended_witness :
    mean samplesBaselineC ≠ 0 ∧
    percentageDiff samplesCurrentC samplesBaselineC = FVal.fin 100 :=
  ⟨by norm_num [mean, samplesBaselineC],
   (percent_delta_formula_amended samplesCurrentC samplesBaselineC
      (by norm_num [mean, samplesBaselineC])).2.2⟩

theorem tryCompare_isSome {x y : FVal} (hx : x ≠ FVal.nan) (hy : y ≠ FVal.nan) :
    (tryCompare x y).isSome = true := by
  cases x <;> cases y <;> simp_all [tryCompare]

theorem tryCompare_nan_right (x : FVal) : tryCompare x FVal.nan = none := by
  cases x <;> rfl

theorem insertOrPanic_nan_cons (y : FVal) (ys : List FVal) :
    insertOrPanic FVal.nan (y :: ys) = Except.error () := by
  cases y <;> rfl

theorem insertOrPanic_into_nan (x : FVal) (ys : List FVal) :
    insertOrPanic x (FVal.nan :: ys) = Except.error () := by
  simp only [insertOrPanic, tryCompare_nan_right]

theorem insertOrPanic_spec (x : FVal) :
    ∀ (s t : List FVal), insertOrPanic x s = Except.ok t →
      x ∈ t ∧ (∀ z ∈ s, z ∈ t) ∧ (∀ z ∈ t, z = x ∨ z ∈ s) ∧ t.length = s.length + 1 := by
  intro s
  induction s with
  | nil =>
    intro t h
    cases h
    refine ⟨by simp, by simp, ?_, by simp⟩
    intro z hz
    simp at hz
    exact Or.inl hz
  | cons y ys ih =>
    intro t h
    simp only [insertOrPanic] at h
    cases hc : tryCompare x y with
    | none =>
      rw [hc] at h
      exact Except.noConfusion h
    | some o =>
      rw [hc] at h
      cases o with
      | lt =>
        cases h
        refine ⟨by simp, ?_, ?_, by simp⟩
        · intro z hz
          exact List.mem_cons_of_mem x hz
        · intro z hz
          rcases List.mem_cons.mp hz with hz | hz
          · exact Or.inl hz
          · exact Or.inr hz
      | eq =>
        cases h
        refine ⟨by simp, ?_, ?_, by simp⟩
        · intro z hz
          exact List.mem_cons_of_mem x hz
        · intro z hz
          rcases List.mem_cons.mp hz with hz | hz
          · exact Or.inl hz
          · exact Or.inr hz
      | gt =>
        cases hr : insertOrPanic x ys with
        | error e =>
          rw [hr] at h
          exact Except.noConfusion h
        | ok zs =>
          rw [hr] at h
          cases h
          obtain ⟨h1, h2, h3, h4⟩ := ih zs hr
          refine ⟨List.mem_cons_of_mem y h1, ?_, ?_, by simp [h4]⟩
          · intro z hz
            rcases List.mem_cons.mp hz with hz | hz
            · rw [hz]; exact List.mem_cons_self y zs
            · exact List.mem_cons_of_mem y (h2 z hz)
          · intro z hz
            rcases List.mem_cons.mp hz with hz | hz
            · exact Or.inr (by rw [hz]; exact List.mem_cons_self y ys)
            · rcases h3 z hz with h' | h'
              · exact Or.inl h'
              · exact Or.inr (List.mem_cons_of_mem y h')

theorem sortOrPanic_ok_spec :
    ∀ (v s : List FVal), sortOrPanic v = Except.ok s →
      (∀ z ∈ v, z ∈ s) ∧ (∀ z ∈ s, z ∈ v) ∧ s.length = v.length := by
  intro v
  induction v with
  | nil =>
    intro s h
    cases h
    exact ⟨by simp, by simp, rfl⟩
  | cons x xs ih =>
    intro s h
    simp only [sortOrPanic] at h
    cases hr : sortOrPanic xs with
    | error e =>
      rw [hr] at h
      exact Except.noConfusion h
    | ok t =>
      rw [hr] at h
      obtain ⟨hmem, hsub, hconv, hlen⟩ := insertOrPanic_spec x t s h
      obtain ⟨ih1, ih2, ih3⟩ := ih t hr
      refine ⟨?_, ?_, ?_⟩
      · intro z hz
        rcases List.mem_cons.mp hz with hz | hz
        · rw [hz]; exact hmem
        · exact hsub z (ih1 z hz)
      · intro z hz
        rcases hconv z hz with h' | h'
        · rw [h']; exact List.mem_cons_self x xs
        · exact List.mem_cons_of_mem x (ih2 z h')
      · rw [hlen, ih3]
        simp

theorem sortOrPanic_nan_sorted :
    ∀ (v s : List FVal), sortOrPanic v = Except.ok s → FVal.nan ∈ s → s = [FVal.nan] := by
  intro v
  induction v with
  | nil =>
    intro s h hn
    cases h
    simp at hn
  | cons x xs ih =>
    intro s h hn
    simp only [sortOrPanic] at h
    cases hr : sortOrPanic xs with
    | error e =>
      rw [hr] at h
      exact Except.noConfusion h
    | ok t =>
      rw [hr] at h
      have h' : insertOrPanic x t = Except.ok s := h
      have hconv := (insertOrPanic_spec x t s h').2.2.1
      rcases hconv FVal.nan hn with hx | ht
      · cases t with
        | nil =>
          rw [← hx] at h'
          have h'' : Except.ok [FVal.nan] = Except.ok s := h'
          cases h''
          rfl
        | cons y ys =>
          rw [← hx, insertOrPanic_nan_cons] at h'
          exact Except.noConfusion h'
      · rw [ih t hr ht, insertOrPanic_into_nan] at h'
        exact Except.noConfusion h'

theorem insertOrPanic_ok_of_no_nan (x : FVal) (hx : x ≠ FVal.nan) :
    ∀ s : List FVal, (∀ z ∈ s, z ≠ FVal.nan) → ∃ t, insertOrPanic x s = Except.ok t := by
  intro s
  induction s with
  | nil =>
    intro _
    exact ⟨[x], rfl⟩
  | cons y ys ih =>
    intro hs
    have hsome : (tryCompare x y).isSome = true :=
      tryCompare_isSome hx (hs y (List.mem_cons_self y ys))
    cases hc : tryCompare x y with
    | none =>
      rw [hc] at hsome
      exact absurd hsome (by simp)
    | some o =>
      cases o with
      | lt =>
        refine ⟨x :: y :: ys, ?_⟩
        simp only [insertOrPanic]
        rw [hc]
      | eq =>
        refine ⟨x :: y :: ys, ?_⟩
        simp only [insertOrPanic]
        rw [hc]
      | gt =>
        obtain ⟨t, ht⟩ := ih (fun z hz => hs z (List.mem_cons_of_mem y hz))
        refine ⟨y :: t, ?_⟩
        simp only [insertOrPanic]
        rw [hc, ht]

theorem sortOrPanic_ok_of_no_nan :
    ∀ v : List FVal, (∀ x ∈ v, x ≠ FVal.nan) → ∃ s, sortOrPanic v = Except.ok s := by
  intro v
  induction v with
  | nil =>
    intro _
    exact ⟨[], rfl⟩
  | cons x xs ih =>
    intro hno
    obtain ⟨t, ht⟩ := ih (fun z hz => hno z (List.mem_cons_of_mem x hz))
    have htmem := (sortOrPanic_ok_spec xs t ht).2.1
    obtain ⟨u, hu⟩ := insertOrPanic_ok_of_no_nan x (hno x (List.mem_cons_self x xs)) t
      (fun z hz => hno z (List.mem_cons_of_mem x (htmem z hz)))
    refine ⟨u, ?_⟩
    simp only [sortOrPanic]
    rw [ht]
    exact hu

/-- C10 counterexample: the parenthetical "if any sample is NaN, the harness
panics" fails for a singleton vector — sorting `[NaN]` performs no comparison
at all, so the `unwrap` is never reached and no panic occurs. -/
theorem sort_singleton_nan_cex :
    FVal.nan ∈ [FVal.nan] ∧ sortOrPanic [FVal.nan] = Except.ok [FVal.nan] :=
  ⟨by simp, rfl⟩

/-- C10 amended: for every sample vector without NaN values the comparator
is total on its elements — the `unwrap` inside the sort comparator is
unreachable — and the ascending sort completes without panicking; if a NaN
is present and the vector has at least two samples, the sort panics (a
singleton NaN vector is sorted without any comparison and does not
panic). -/
theorem sort_unwrap_amended (v : List FVal) :
    ((∀ x ∈ v, x ≠ FVal.nan) →
      (∀ x ∈ v, ∀ y ∈ v, (tryCompare x y).isSome = true) ∧
      ∃ s, sortOrPanic v = Except.ok s) ∧
    (FVal.nan ∈ v → 2 ≤ v.length → sortOrPanic v = Except.error ()) := by
  constructor
  · intro hno
    exact ⟨fun x hx y hy => tryCompare_isSome (hno x hx) (hno y hy),
      sortOrPanic_ok_of_no_nan v hno⟩
  · intro hnan hlen
    cases hs : sortOrPanic v with
    | error e => rfl
    | ok s =>
      exfalso
      have h1 := (sortOrPanic_ok_spec v s hs).1 FVal.nan hnan
      have h2 := sortOrPanic_nan_sorted v s hs h1
      have h3 := (sortOrPanic_ok_spec v s hs).2.2
      rw [h2] at h3
      simp at h3
      omega

/-- C10 witness: a NaN-free vector sorts without panicking; a two-element
vector containing NaN panics. -/
theorem sort_unwrap_amended_witness :
    (∃ s, sortOrPanic [FVal.fin 3, FVal.fin 1, FVal.fin 2] = Except.ok s) ∧
    sortOrPanic [FVal.nan, FVal.fin 1] = Except.error () :=
  ⟨((sort_unwrap_amended [FVal.fin 3, FVal.fin 1, FVal.fin 2]).1 (by decide)).2,
   (sort_unwrap_amended [FVal.nan, FVal.fin 1]).2 (by decide) (by decide)⟩

end BBG
